import Mathlib

/-!
Verification of the federal-employment aggregation pipeline.

Shallow embedding of the two ETL scripts of this repository,
`scripts/process_data.py` (full on-disk CSV export) and
`scripts/create_dashboard_data.py` (compact embedded dashboard payload),
together with proofs of the behavioural properties stated about them.

Modelling conventions:
* A pandas frame is a `List Row` in file order.
* Missing cells (`NaN`) are `Option.none`; categorical/string cells are
  `Option String`; `count` and `snapshot_yyyymm` are declared `int32` in the
  scripts and are modelled as `Int` (the data never approaches the 32-bit
  range, so no wrap-around is modelled).
* Monetary values are exact rationals `ℚ`: the scripts only ever *compare*
  pay against the band thresholds, and every comparison performed is exact
  in both binary floating point and `ℚ` for the values involved.
* `groupby` over key columns with `dropna=True` (the pandas default, used by
  every groupby in both scripts) drops the rows whose key has a missing
  component; `sort=True` (also the default everywhere) emits groups in
  ascending key order, modelled as lexicographic string order.
* Statistic columns other than the aggregated `count` (the means, medians,
  standard deviations and tenure averages) are not referenced by any
  property proved below and are elided from the aggregate-row model.
-/

namespace FedEmp

/-- One source row: an employee-count bucket of the pipe-delimited snapshot
file.  Only the columns that the modelled computations read are included;
the remaining declared columns (`agency_subelement`, `occupational_series`,
`pay_plan`, `work_schedule`, ... and the various `_code` twins not used by a
modelled table) are never consulted by any property below. -/
structure Row where
  agency : Option String := none
  agency_code : Option String := none
  duty_station_state : Option String := none
  duty_station_state_abbreviation : Option String := none
  age_bracket : Option String := none
  education_level : Option String := none
  appointment_type : Option String := none
  supervisory_status : Option String := none
  stem_occupation : Option String := none
  annualized_adjusted_basic_pay : Option String := none
  count : Int := 0
  snapshot_yyyymm : Int := 0
deriving DecidableEq

/-- Value of a list of decimal digit characters, `none` on any non-digit.
An empty list has value `0` (matching `float("50.")`/`float(".5")`). -/
def digitsVal (cs : List Char) : Option Nat :=
  cs.foldl
    (fun acc c =>
      acc.bind fun n => if c.isDigit then some (10 * n + (c.toNat - 48)) else none)
    (some 0)

/-- Split a character list at every `'.'` (the string `splitOn "."`). -/
def splitOnDot (cs : List Char) : List (List Char) :=
  cs.foldr
    (fun c acc =>
      if c = '.' then [] :: acc
      else
        match acc with
        | [] => [[c]]
        | g :: gs => (c :: g) :: gs)
    [[]]

/-- Models `pandas.to_numeric(s, errors="coerce")` on the pay column,
restricted to the unsigned decimal literals that actually occur there:
`digits`, `digits.digits`, `digits.` or `.digits` parse to their exact
rational value; anything else (in particular the sentinel `"REDACTED"`, and
the empty string) yields `none` — coercion never raises. -/
def parseDecimal (s : String) : Option ℚ :=
  match splitOnDot s.toList with
  | [w] => if w.isEmpty then none else (digitsVal w).map fun n => mkRat n 1
  | [w, f] =>
      if w.isEmpty && f.isEmpty then none
      else
        (digitsVal w).bind fun wn =>
          (digitsVal f).map fun fn =>
            mkRat (wn * 10 ^ f.length + fn) (10 ^ f.length)
  | _ => none

/-- `df['pay_numeric'] = pd.to_numeric(df['annualized_adjusted_basic_pay'],
errors='coerce')`, as a function of the raw cell (a missing cell coerces to
missing). Total: derivation never aborts the run. -/
def payNumericRaw (raw : Option String) : Option ℚ :=
  raw.bind parseDecimal

/-- `df['is_redacted'] = df['annualized_adjusted_basic_pay'] == 'REDACTED'`
(`scripts/process_data.py`); elementwise equality against the sentinel, which
is `False` on a missing cell. Total: derivation never aborts the run. -/
def isRedactedRaw (raw : Option String) : Bool :=
  raw == some "REDACTED"

/-- The derived `pay_numeric` column of a row. -/
def payNumeric (r : Row) : Option ℚ :=
  payNumericRaw r.annualized_adjusted_basic_pay

/-- `pay_band` of `scripts/create_dashboard_data.py` (lines 73-81): buckets a
pay value — `none` models `pd.isna(pay)` — into the dashboard bands. -/
def pay_band (pay : Option ℚ) : String :=
  match pay with
  | none => "Redacted"
  | some p =>
    if p < 50000 then "Under $50K"
    else if p < 75000 then "$50K-$75K"
    else if p < 100000 then "$75K-$100K"
    else if p < 125000 then "$100K-$125K"
    else if p < 150000 then "$125K-$150K"
    else if p < 200000 then "$150K-$200K"
    else "$200K+"

/-- `categorize_pay` of `scripts/process_data.py` (lines 89-97): buckets a
pay value into the full-export bands. -/
def categorize_pay (pay : Option ℚ) : String :=
  match pay with
  | none => "Unknown/Redacted"
  | some p =>
    if p < 40000 then "< $40K"
    else if p < 60000 then "$40K-$60K"
    else if p < 80000 then "$60K-$80K"
    else if p < 100000 then "$80K-$100K"
    else if p < 150000 then "$100K-$150K"
    else if p < 200000 then "$150K-$200K"
    else "$200K+"

/-- The fixed ordered band list `band_order` of
`scripts/create_dashboard_data.py` (line 87). -/
def band_order : List String :=
  ["Under $50K", "$50K-$75K", "$75K-$100K", "$100K-$125K", "$125K-$150K",
   "$150K-$200K", "$200K+", "Redacted"]

/-- The fixed set of strings `categorize_pay` can return
(`scripts/process_data.py` has no explicit ordering list for them). -/
def proc_pay_bands : List String :=
  ["< $40K", "$40K-$60K", "$60K-$80K", "$80K-$100K", "$100K-$150K",
   "$150K-$200K", "$200K+", "Unknown/Redacted"]

/-- The fixed ordered age-bracket list `age_order` of
`scripts/create_dashboard_data.py` (line 122). -/
def age_order : List String :=
  ["LESS THAN 20", "20-24", "25-29", "30-34", "35-39", "40-44", "45-49",
   "50-54", "55-59", "60-64", "65 OR MORE"]

/-- `band_order.index(x) if x in band_order else 99` (line 88), the explicit
rank lookup used to order the pay-distribution table. -/
def bandRank (b : String) : Nat :=
  if b ∈ band_order then band_order.indexOf b else 99

/-- `age_order.index(x) if x in age_order else 99` (line 123), the explicit
rank lookup used to order the age-bracket table. -/
def ageRank (b : String) : Nat :=
  if b ∈ age_order then age_order.indexOf b else 99

/-! ## Generic groupby-aggregate machinery

Both scripts only ever aggregate via `groupby(keys).agg(...)`; the one
aggregate any proved property reads is the per-group `sum` of `count`.
-/

/-- One output row of an aggregate table: the grouping key together with the
aggregated sum of `count` (named `employees` after the dashboard script's
renaming; `process_data.py` calls the same column `count_sum` /
`employee_count`). -/
structure AggRow (K : Type) where
  key : K
  employees : Int
deriving DecidableEq

/-- The rows that survive `dropna=True` for a given grouping key, paired
with their `count`: the key extractor returns `none` exactly when some key
component is a missing cell. -/
def keyedCounts (keyFn : Row → Option K) (rows : List Row) : List (K × Int) :=
  rows.filterMap fun r => (keyFn r).map fun k => (k, r.count)

/-- Aggregated `count` of one group: sum of `count` over the keyed rows
whose key equals `k` (pandas `sum` of an empty group is `0`). -/
def groupTotal [DecidableEq K] (k : K) (pairs : List (K × Int)) : Int :=
  ((pairs.filter fun p => p.1 = k).map Prod.snd).sum

/-- Insert `a` into `l` before the first element `b` with `le a b`. -/
def insertLe (le : α → α → Bool) (a : α) : List α → List α
  | [] => [a]
  | b :: l => if le a b then a :: b :: l else b :: insertLe le a l

/-- Deterministic comparison sort (an insertion sort).  It stands in for
both the groupby key ordering (`sort=True`) and `sort_values` (whose
default `quicksort` is equally deterministic); no property proved below
depends on the relative order of tied elements. -/
def sortLe (le : α → α → Bool) : List α → List α
  | [] => []
  | a :: l => insertLe le a (sortLe le l)

/-- `df.groupby(keys, observed=True).agg({'count': 'sum'})`: one output row
per key combination observed among the rows with a fully non-null key,
emitted in ascending key order (`sort=True`, the default). -/
def groupObserved [DecidableEq K] (le : K → K → Bool) (keyFn : Row → Option K)
    (rows : List Row) : List (AggRow K) :=
  let pairs := keyedCounts keyFn rows
  ((sortLe le (pairs.map Prod.fst).dedup).map fun k => ⟨k, groupTotal k pairs⟩)

/-- Strict lexicographic comparison of character lists by code point (the
order Python and pandas sort strings by, which for these all-ASCII category
values coincides with the library's string order). -/
def charLt : List Char → List Char → Bool
  | [], [] => false
  | [], _ :: _ => true
  | _ :: _, [] => false
  | a :: as, b :: bs => if a = b then charLt as bs else decide (a < b)

/-- Ascending string order, the groupby key order for a single key column. -/
def strLe (a b : String) : Bool := a = b || charLt a.toList b.toList

/-- Lexicographic order on a two-column key. -/
def pairLe (a b : String × String) : Bool :=
  if a.1 = b.1 then strLe a.2 b.2 else charLt a.1.toList b.1.toList

/-- `sort_values('employees', ascending=False)`: descending by aggregated
count. (`sort_values` uses an unstable quicksort; no property below depends
on the relative order of tied rows, so a merge sort models it.) -/
def empDesc (a b : AggRow K) : Bool := b.employees ≤ a.employees

/-- Ascending by an explicit rank lookup (`sort_values('order')` after
`apply`ing the rank). -/
def rankLe (rank : String → Nat) (a b : AggRow String) : Bool :=
  rank a.key ≤ rank b.key

/-! ## Tables of `scripts/create_dashboard_data.py` -/

/-- Two-column state key; `none` when either component is missing
(`groupby` with `dropna=True` drops a row if any key component is null). -/
def stateKey (r : Row) : Option (String × String) :=
  match r.duty_station_state, r.duty_station_state_abbreviation with
  | some s, some a => some (s, a)
  | _, _ => none

/-- `agency_data` (lines 46-54): group by `agency` (`observed=True`),
aggregate, keep `employees > 0`, sort descending by `employees`. -/
def agency_data (rows : List Row) : List (AggRow String) :=
  sortLe empDesc
    ((groupObserved strLe (fun r => r.agency) rows).filter
      fun g => 0 < g.employees)

/-- `state_data` (lines 59-68): group by the state pair, keep
`employees > 0`, sort descending, then drop the `REDACTED` state. -/
def state_data (rows : List Row) : List (AggRow (String × String)) :=
  (sortLe empDesc
      ((groupObserved pairLe stateKey rows).filter
        fun g => 0 < g.employees)).filter
    fun g => g.key.1 ≠ "REDACTED"

/-- The derived `pay_band` column (line 83): `pay_band` is total, so this
grouping key is never null. -/
def payBandKey (r : Row) : Option String :=
  some (pay_band (payNumeric r))

/-- `pay_dist` (lines 84-89): group by the derived `pay_band` column, sum
`count`, and sort by the `band_order` rank.  No `employees > 0` filter is
applied to this table. -/
def pay_dist (rows : List Row) : List (AggRow String) :=
  sortLe (rankLe bandRank) (groupObserved strLe payBandKey rows)

/-- `edu_data` (lines 93-99): group by `education_level`, keep
`employees > 0`.  The source then sorts by `avg_pay` (a statistic column not
modelled); that sort only permutes the rows and no property below concerns
this table's order, so it is elided. -/
def edu_data (rows : List Row) : List (AggRow String) :=
  (groupObserved strLe (fun r => r.education_level) rows).filter
    fun g => 0 < g.employees

/-- `appt_data` (lines 103-110): group by `appointment_type`, keep
`employees > 0`, sort descending by `employees`. -/
def appt_data (rows : List Row) : List (AggRow String) :=
  sortLe empDesc
    ((groupObserved strLe (fun r => r.appointment_type) rows).filter
      fun g => 0 < g.employees)

/-- `age_data` (lines 114-124): group by `age_bracket`, keep
`employees > 0`, sort by the `age_order` rank. -/
def age_data (rows : List Row) : List (AggRow String) :=
  sortLe (rankLe ageRank)
    ((groupObserved strLe (fun r => r.age_bracket) rows).filter
      fun g => 0 < g.employees)

/-- `stem_data` (lines 128-134): group by `stem_occupation`, keep
`employees > 0`; this table is not re-sorted. -/
def stem_data (rows : List Row) : List (AggRow String) :=
  (groupObserved strLe (fun r => r.stem_occupation) rows).filter
    fun g => 0 < g.employees

/-- `super_data` (lines 138-144): group by `supervisory_status`, keep
`employees > 0`, sort descending by `employees`. -/
def super_data (rows : List Row) : List (AggRow String) :=
  sortLe empDesc
    ((groupObserved strLe (fun r => r.supervisory_status) rows).filter
      fun g => 0 < g.employees)

/-- `int(df['count'].sum())`: total count over every source row. -/
def totalCount (rows : List Row) : Int :=
  (rows.map Row.count).sum

/-- The `overall` dict (lines 147-156).  The float statistics
(`avg_salary`, `median_salary`, `avg_tenure`, `pct_stem`) are not referenced
by any property below and are elided. -/
structure DashOverall where
  total_employees : Int
  total_agencies : Nat
  total_states : Nat
  snapshot : String
deriving DecidableEq

/-- `overall` of `scripts/create_dashboard_data.py`: `total_agencies` is
`agency_data['agency'].nunique()`, `total_states` is `len(state_data)`. -/
def dashOverall (rows : List Row) : DashOverall where
  total_employees := totalCount rows
  total_agencies := ((agency_data rows).map fun g => g.key).dedup.length
  total_states := (state_data rows).length
  snapshot := "November 2025"

/-- The `data` dict embedded into `data.js` (lines 162-173). -/
structure DashboardData where
  overall : DashOverall
  agencies : List (AggRow String)
  allAgencies : List (AggRow String)
  states : List (AggRow (String × String))
  payDistribution : List (AggRow String)
  education : List (AggRow String)
  appointments : List (AggRow String)
  ageBrackets : List (AggRow String)
  stem : List (AggRow String)
  supervisory : List (AggRow String)
deriving DecidableEq

/-- The embedded payload: `agencies` is `agency_data.head(50)`. -/
def dashboardData (rows : List Row) : DashboardData where
  overall := dashOverall rows
  agencies := (agency_data rows).take 50
  allAgencies := agency_data rows
  states := state_data rows
  payDistribution := pay_dist rows
  education := edu_data rows
  appointments := appt_data rows
  ageBrackets := age_data rows
  stem := stem_data rows
  supervisory := super_data rows

/-! ## Tables of `scripts/process_data.py`

The groupby calls of this script pass no `observed=` argument.  Its key
columns are declared `category` dtype, whose categories — the column is read
straight from the CSV — are exactly the distinct non-null values occurring
in it.  With the pandas default `observed=False` (the default throughout the
pandas 1.x/2.x line these scripts are written against), a multi-column
groupby over categoricals therefore materialises the full cross-product of
the per-column category sets, not just the observed combinations. -/

/-- The category set of a `dtype='category'` column read from the CSV: the
distinct non-null values, in ascending order. -/
def colCategories (col : Row → Option String) (rows : List Row) : List String :=
  sortLe strLe (rows.filterMap col).dedup

/-- Two-column agency key of `agency_export`; `none` when either component
is missing. -/
def agencyPairKey (r : Row) : Option (String × String) :=
  match r.agency, r.agency_code with
  | some a, some c => some (a, c)
  | _, _ => none

/-- `agency_export` (lines 105-114): `df.groupby(['agency','agency_code'])`
with the default `observed=False` over two categorical columns — one output
row per element of the cross-product of the two category sets, in key order,
with the aggregated `count` (zero for combinations observed in no row).  No
`employees > 0` filter and no re-sort is applied. -/
def agency_export (rows : List Row) : List (AggRow (String × String)) :=
  let pairs := keyedCounts agencyPairKey rows
  ((colCategories (fun r => r.agency) rows).product
      (colCategories (fun r => r.agency_code) rows)).map
    fun k => ⟨k, groupTotal k pairs⟩

/-- The `overall_stats` dict (lines 166-175).  The float statistics
(`avg_salary`, `median_salary`, `avg_tenure`, `pct_redacted`) are not
referenced by any property below and are elided. -/
structure OverallStats where
  total_employees : Int
  total_agencies : Nat
  total_states : Nat
  snapshot_date : Int
deriving DecidableEq

/-- `overall_stats` of `scripts/process_data.py`: `snapshot_date` is
`int(df['snapshot_yyyymm'].iloc[0])`, which raises `IndexError` on a frame
with zero rows — hence `none` for the empty input.  `nunique()` counts
distinct non-null values. -/
def overall_stats : List Row → Option OverallStats
  | [] => none
  | r :: rs =>
    some
      { total_employees := totalCount (r :: rs)
        total_agencies := ((r :: rs).filterMap fun x => x.agency).dedup.length
        total_states :=
          ((r :: rs).filterMap fun x => x.duty_station_state).dedup.length
        snapshot_date := r.snapshot_yyyymm }

/-! ## Runs, output files and failure

A run is modelled against an abstract file store mapping a path to the
(structured) content last written there; serialisation to bytes is a further
pure function of that content, so equal stored values mean byte-identical
files.  Every write in both scripts opens its target with mode `'w'`
(`open(..., 'w')` / `DataFrame.to_csv`), i.e. truncate-and-overwrite, which
`setFile` models.  The input is `Option (List Row)`: `none` models an absent
file at `RAW_DATA_PATH`. -/

/-- An abstract file store. -/
def FS (α : Type) : Type := String → Option α

/-- One wholesale overwrite (mode `'w'`): the path now holds exactly `v`. -/
def setFile (fs : FS α) (p : String) (v : α) : FS α :=
  fun q => if q = p then some v else fs q

/-- `RAW_DATA_PATH`, identical in both scripts. -/
def rawDataPath : String :=
  "/mnt/c/Users/chipp/Downloads/employment_202511_1_2026-01-21.csv"

/-- Output path of the dashboard payload. -/
def dataJsPath : String := "dashboard/data.js"

/-- Output path of the modelled full-export CSV. -/
def agencySummaryPath : String := "data/processed/agency_summary.csv"

/-- Output path of the overall-statistics JSON. -/
def overallStatsPath : String := "data/processed/overall_stats.json"

/-- Outcome of one script invocation: the resulting file store, the process
exit code, and the diagnostic text reported on failure. -/
structure RunResult (α : Type) where
  fs : FS α
  exitCode : Nat
  diagnostic : Option String

/-- Content written by `create_dashboard_data.py` (it writes one file). -/
inductive DashFile where
  | dataJs (d : DashboardData)
deriving DecidableEq

/-- Contents written by `process_data.py`.  Of its seven outputs the agency
summary and the overall-statistics JSON are modelled; the five other CSVs
are analogous per-table writes that no property below reads. -/
inductive ProcFile where
  | agencyCsv (table : List (AggRow (String × String)))
  | statsJson (stats : OverallStats)
deriving DecidableEq

/-- The message printed by `process_data.py` before `sys.exit(1)` when
`RAW_DATA_PATH.exists()` is false (lines 23-25). -/
def procMissingMsg : String :=
  "ERROR: Raw data file not found at " ++ rawDataPath

/-- The uncaught-exception text when `pd.read_csv` (line 37 of
`create_dashboard_data.py`, which performs no existence check) is pointed at
an absent file; CPython exits with status 1 on an uncaught exception. -/
def dashMissingMsg : String :=
  "FileNotFoundError: [Errno 2] No such file or directory: " ++ rawDataPath

/-- One invocation of `scripts/create_dashboard_data.py`. -/
def runDashboard (input : Option (List Row)) (fs : FS DashFile) :
    RunResult DashFile :=
  match input with
  | none => ⟨fs, 1, some dashMissingMsg⟩
  | some rows =>
    ⟨setFile fs dataJsPath (.dataJs (dashboardData rows)), 0, none⟩

/-- One invocation of `scripts/process_data.py`: the existence check guards
the whole run; the per-table CSVs are written first (steps 3/8 - 7/8), and
`overall_stats` (step 8/8) raises on an empty frame — after the CSVs are on
disk but before `overall_stats.json` is written. -/
def runProcess (input : Option (List Row)) (fs : FS ProcFile) :
    RunResult ProcFile :=
  match input with
  | none => ⟨fs, 1, some procMissingMsg⟩
  | some rows =>
    let fs1 := setFile fs agencySummaryPath (.agencyCsv (agency_export rows))
    match overall_stats rows with
    | none => ⟨fs1, 1, some "IndexError: single positional indexer is out-of-bounds"⟩
    | some st => ⟨setFile fs1 overallStatsPath (.statsJson st), 0, none⟩

/-! ## Concrete inputs used to evaluate the model

Each input list is dedicated to the property named after it. -/

/-- A source row whose `count` is zero and whose pay falls in the lowest
dashboard band. -/
def c1rows : List Row :=
  [{ annualized_adjusted_basic_pay := some "10000", count := 0 }]

/-- One fully-populated source row. -/
def c1wrows : List Row :=
  [{ agency := some "GSA", agency_code := some "47",
     duty_station_state := some "OHIO",
     duty_station_state_abbreviation := some "OH",
     age_bracket := some "20-24", education_level := some "BACHELORS",
     appointment_type := some "PERMANENT", supervisory_status := some "NONE",
     stem_occupation := some "STEM", count := 4 }]

/-- A positive-count `REDACTED` state group next to an ordinary state. -/
def c4rows : List Row :=
  [{ duty_station_state := some "REDACTED",
     duty_station_state_abbreviation := some "RD", count := 5 },
   { duty_station_state := some "TEXAS",
     duty_station_state_abbreviation := some "TX", count := 3 }]

/-- Rows exercising every table total of the amended total-preservation
property. -/
def c4wrows : List Row :=
  [{ agency := some "GSA", agency_code := some "47",
     duty_station_state := some "REDACTED",
     duty_station_state_abbreviation := some "RD", count := 5 },
   { agency := some "DOD", agency_code := some "97",
     duty_station_state := some "TEXAS",
     duty_station_state_abbreviation := some "TX", count := 3 }]

/-- Two agencies with distinct codes: the full-export groupby materialises
the two cross combinations never observed in a row. -/
def c5rows : List Row :=
  [{ agency := some "A", agency_code := some "1", count := 1 },
   { agency := some "B", agency_code := some "2", count := 2 }]

/-- One observed agency for the observed-combinations witness. -/
def c5wrows : List Row :=
  [{ agency := some "GSA", duty_station_state := some "OHIO",
     duty_station_state_abbreviation := some "OH", count := 2 }]

/-- Agencies sharing one code, listed with the smaller count first: the
full-export agency table keeps groupby key order, not descending count. -/
def c6rows : List Row :=
  [{ agency := some "A", agency_code := some "1", count := 1 },
   { agency := some "B", agency_code := some "1", count := 5 }]

/-- Two agencies with distinct counts for the dashboard sort witness. -/
def c6wrows : List Row :=
  [{ agency := some "A", count := 1 },
   { agency := some "B", count := 5 }]

/-- A positive-count `REDACTED` state group next to an ordinary state. -/
def c9rows : List Row :=
  [{ duty_station_state := some "REDACTED",
     duty_station_state_abbreviation := some "RD", count := 5 },
   { duty_station_state := some "TEXAS",
     duty_station_state_abbreviation := some "TX", count := 3 }]

/-! ## Lemmas about the sorting and grouping machinery -/

theorem insertLe_perm (le : α → α → Bool) (a : α) (l : List α) :
    List.Perm (insertLe le a l) (a :: l) := by
  induction l with
  | nil => exact List.Perm.refl _
  | cons b t ih =>
    simp only [insertLe]
    by_cases h : le a b = true
    · simp [h]
    · simp only [h, if_false]
      exact (ih.cons b).trans (List.Perm.swap a b t)

theorem sortLe_perm (le : α → α → Bool) (l : List α) :
    List.Perm (sortLe le l) l := by
  induction l with
  | nil => exact List.Perm.refl _
  | cons a t ih =>
    exact (insertLe_perm le a (sortLe le t)).trans (ih.cons a)

theorem mem_sortLe {le : α → α → Bool} {l : List α} {x : α} :
    x ∈ sortLe le l ↔ x ∈ l :=
  (sortLe_perm le l).mem_iff

theorem mem_insertLe {le : α → α → Bool} {l : List α} {a x : α} :
    x ∈ insertLe le a l ↔ x = a ∨ x ∈ l := by
  rw [(insertLe_perm le a l).mem_iff, List.mem_cons]

theorem pairwise_insertLe {le : α → α → Bool}
    (htr : ∀ a b c, le a b = true → le b c = true → le a c = true)
    (hto : ∀ a b, le a b = true ∨ le b a = true)
    {l : List α} {a : α} (hl : l.Pairwise fun x y => le x y = true) :
    (insertLe le a l).Pairwise fun x y => le x y = true := by
  induction l with
  | nil => simp [insertLe]
  | cons b t ih =>
    rcases List.pairwise_cons.mp hl with ⟨hbt, htp⟩
    simp only [insertLe]
    by_cases h : le a b = true
    · simp only [h, if_true]
      refine List.pairwise_cons.mpr ⟨?_, hl⟩
      intro y hy
      rcases List.mem_cons.mp hy with rfl | hy
      · exact h
      · exact htr a b y h (hbt y hy)
    · simp only [h, if_false]
      refine List.pairwise_cons.mpr ⟨?_, ih htp⟩
      intro y hy
      rcases mem_insertLe.mp hy with heq | hy
      · rw [heq]
        exact (hto a b).resolve_left h
      · exact hbt y hy

theorem pairwise_sortLe (le : α → α → Bool)
    (htr : ∀ a b c, le a b = true → le b c = true → le a c = true)
    (hto : ∀ a b, le a b = true ∨ le b a = true) (l : List α) :
    (sortLe le l).Pairwise fun x y => le x y = true := by
  induction l with
  | nil => exact List.Pairwise.nil
  | cons a t ih => exact pairwise_insertLe htr hto ih

theorem empDesc_trans (a b c : AggRow K) :
    empDesc a b = true → empDesc b c = true → empDesc a c = true := by
  simp only [empDesc, decide_eq_true_eq]
  omega

theorem empDesc_total (a b : AggRow K) :
    empDesc a b = true ∨ empDesc b a = true := by
  simp only [empDesc, decide_eq_true_eq]
  omega

theorem rankLe_trans (rank : String → Nat) (a b c : AggRow String) :
    rankLe rank a b = true → rankLe rank b c = true → rankLe rank a c = true := by
  simp only [rankLe, decide_eq_true_eq]
  omega

theorem rankLe_total (rank : String → Nat) (a b : AggRow String) :
    rankLe rank a b = true ∨ rankLe rank b a = true := by
  simp only [rankLe, decide_eq_true_eq]
  omega

/-- Every row of an observed-groups table carries a key observed in a
source row that survived `dropna`. -/
theorem mem_groupObserved_key [DecidableEq K] {le : K → K → Bool}
    {keyFn : Row → Option K} {rows : List Row} {g : AggRow K}
    (hg : g ∈ groupObserved le keyFn rows) :
    ∃ r ∈ rows, keyFn r = some g.key := by
  rcases List.mem_map.mp hg with ⟨k, hk, rfl⟩
  rcases List.mem_map.mp (List.mem_dedup.mp (mem_sortLe.mp hk)) with ⟨p, hp, rfl⟩
  rcases List.mem_filterMap.mp hp with ⟨r, hr, hmap⟩
  rcases Option.map_eq_some'.mp hmap with ⟨k', hk', hpair⟩
  subst hpair
  exact ⟨r, hr, hk'⟩

/-- The keys of an observed-groups table, in emission order. -/
theorem groupObserved_keys [DecidableEq K] (le : K → K → Bool)
    (keyFn : Row → Option K) (rows : List Row) :
    (groupObserved le keyFn rows).map (fun g => g.key) =
      sortLe le ((keyedCounts keyFn rows).map Prod.fst).dedup := by
  simp [groupObserved, Function.comp_def]

theorem groupTotal_cons [DecidableEq K] (k : K) (p : K × Int)
    (ps : List (K × Int)) :
    groupTotal k (p :: ps) = (if p.1 = k then p.2 else 0) + groupTotal k ps := by
  by_cases h : p.1 = k <;> simp [groupTotal, List.filter_cons, h]

theorem sum_map_ite_zero [DecidableEq K] (L : List K) (a : K) (c : Int)
    (ha : a ∉ L) : (L.map fun k => if a = k then c else 0).sum = 0 := by
  induction L with
  | nil => rfl
  | cons b t ih =>
    have hab : a ≠ b := fun h => ha (h ▸ List.mem_cons_self b t)
    simp only [List.map_cons, List.sum_cons, if_neg hab,
      ih fun h => ha (List.mem_cons_of_mem b h), add_zero]

theorem sum_map_ite_single [DecidableEq K] (L : List K) (a : K) (c : Int)
    (hnd : L.Nodup) (ha : a ∈ L) :
    (L.map fun k => if a = k then c else 0).sum = c := by
  induction L with
  | nil => cases ha
  | cons b t ih =>
    rcases List.nodup_cons.mp hnd with ⟨hbt, hts⟩
    rcases List.mem_cons.mp ha with heq | hmem
    · subst heq
      simp [List.map_cons, List.sum_cons, sum_map_ite_zero t a c hbt]
    · have hab : a ≠ b := fun h => hbt (h ▸ hmem)
      simp only [List.map_cons, List.sum_cons, if_neg hab, ih hts hmem, zero_add]

/-- Partition identity: summing the per-group totals over any duplicate-free
key list that covers every keyed row's key recovers the total count of the
keyed rows.  This is the algebraic heart of every "table total = source
total" property below. -/
theorem sum_map_groupTotal [DecidableEq K] (L : List K)
    (pairs : List (K × Int)) (hnd : L.Nodup) (hc : ∀ p ∈ pairs, p.1 ∈ L) :
    (L.map fun k => groupTotal k pairs).sum = (pairs.map Prod.snd).sum := by
  induction pairs with
  | nil => simp [groupTotal]
  | cons p ps ih =>
    have hL : (L.map fun k => groupTotal k (p :: ps)).sum =
        (L.map fun k => if p.1 = k then p.2 else 0).sum +
          (L.map fun k => groupTotal k ps).sum := by
      simp only [groupTotal_cons]
      rw [← List.sum_map_add]
    rw [hL, sum_map_ite_single L p.1 p.2 hnd (hc p (List.mem_cons_self p ps)),
      ih fun q hq => hc q (List.mem_cons_of_mem p hq)]
    simp

/-- Dropping list elements on which the summand is zero keeps the sum. -/
theorem sum_filter_eq_sum (p : α → Bool) (f : α → Int) (l : List α)
    (h : ∀ x ∈ l, p x = false → f x = 0) :
    ((l.filter p).map f).sum = (l.map f).sum := by
  induction l with
  | nil => rfl
  | cons a t ih =>
    have ht : ∀ x ∈ t, p x = false → f x = 0 := fun x hx =>
      h x (List.mem_cons_of_mem a hx)
    by_cases hp : p a = true
    · simp [List.filter_cons, hp, ih ht]
    · have : f a = 0 := h a (List.mem_cons_self a t) (Bool.not_eq_true _ ▸ hp)
      simp [List.filter_cons, hp, ih ht, this]

/-- Sum of `count` over the rows whose key is fully non-null, as a filter
over the source rows. -/
theorem sum_keyedCounts (keyFn : Row → Option K) (rows : List Row) :
    ((keyedCounts keyFn rows).map Prod.snd).sum =
      ((rows.filter fun r => (keyFn r).isSome).map Row.count).sum := by
  induction rows with
  | nil => rfl
  | cons r t ih =>
    cases h : keyFn r <;>
      simp [keyedCounts, List.filterMap_cons, List.filter_cons, h, ← ih,
        keyedCounts]

/-- The total `employees` of an observed-groups table is the total `count`
of the source rows with a fully non-null key. -/
theorem sum_groupObserved [DecidableEq K] (le : K → K → Bool)
    (keyFn : Row → Option K) (rows : List Row) :
    ((groupObserved le keyFn rows).map AggRow.employees).sum =
      ((rows.filter fun r => (keyFn r).isSome).map Row.count).sum := by
  rw [← sum_keyedCounts]
  have hmap : (groupObserved le keyFn rows).map AggRow.employees =
      (sortLe le ((keyedCounts keyFn rows).map Prod.fst).dedup).map
        fun k => groupTotal k (keyedCounts keyFn rows) := by
    simp [groupObserved, Function.comp_def]
  rw [hmap]
  have hperm : List.Perm
      (sortLe le ((keyedCounts keyFn rows).map Prod.fst).dedup)
      ((keyedCounts keyFn rows).map Prod.fst).dedup :=
    sortLe_perm le _
  rw [(hperm.map fun k => groupTotal k (keyedCounts keyFn rows)).sum_eq]
  exact sum_map_groupTotal _ _ (List.nodup_dedup _) fun p hp =>
    List.mem_dedup.mpr (List.mem_map_of_mem Prod.fst hp)

theorem stateKey_eq_some {r : Row} {k : String × String} :
    stateKey r = some k ↔
      r.duty_station_state = some k.1 ∧
        r.duty_station_state_abbreviation = some k.2 := by
  obtain ⟨k1, k2⟩ := k
  unfold stateKey
  cases r.duty_station_state <;> cases r.duty_station_state_abbreviation <;>
    simp

theorem agencyPairKey_eq_some {r : Row} {k : String × String} :
    agencyPairKey r = some k ↔
      r.agency = some k.1 ∧ r.agency_code = some k.2 := by
  obtain ⟨k1, k2⟩ := k
  unfold agencyPairKey
  cases r.agency <;> cases r.agency_code <;> simp

theorem mem_keyedCounts {keyFn : Row → Option K} {rows : List Row}
    {p : K × Int} (hp : p ∈ keyedCounts keyFn rows) :
    ∃ r ∈ rows, keyFn r = some p.1 ∧ p.2 = r.count := by
  rcases List.mem_filterMap.mp hp with ⟨r, hr, hmap⟩
  rcases Option.map_eq_some'.mp hmap with ⟨k', hk', hpair⟩
  subst hpair
  exact ⟨r, hr, hk', rfl⟩

/-- With non-negative source counts every group total is non-negative. -/
theorem groupTotal_nonneg [DecidableEq K] {keyFn : Row → Option K}
    {rows : List Row} (hc : ∀ r ∈ rows, 0 ≤ r.count) (k : K) :
    0 ≤ groupTotal k (keyedCounts keyFn rows) := by
  apply List.sum_nonneg
  intro x hx
  rcases List.mem_map.mp hx with ⟨p, hp, rfl⟩
  rcases mem_keyedCounts (List.mem_filter.mp hp).1 with ⟨r, hr, _, hcount⟩
  exact hcount ▸ hc r hr

/-- Per-group totals summed over a duplicate-free, covering key list,
restricted by a key predicate: equal to the total count of the keyed rows
satisfying the predicate. -/
theorem sum_map_groupTotal_filter [DecidableEq K] (q : K → Bool) (L : List K)
    (pairs : List (K × Int)) (hnd : L.Nodup) (hc : ∀ p ∈ pairs, p.1 ∈ L) :
    ((L.filter q).map fun k => groupTotal k pairs).sum =
      ((pairs.filter fun p => q p.1).map Prod.snd).sum := by
  have hcongr : ((L.filter q).map fun k => groupTotal k pairs) =
      (L.filter q).map fun k => groupTotal k (pairs.filter fun p => q p.1) := by
    apply List.map_congr_left
    intro k hk
    have hqk : q k = true := (List.mem_filter.mp hk).2
    unfold groupTotal
    rw [List.filter_filter]
    have heq : (pairs.filter fun p => decide (p.1 = k)) =
        pairs.filter fun p => decide (p.1 = k) && q p.1 := by
      apply List.filter_congr
      intro p _
      by_cases h : p.1 = k
      · simp [h, hqk]
      · simp [h]
    rw [← heq]
  rw [hcongr]
  apply sum_map_groupTotal _ _ (hnd.filter q)
  intro p hp
  rcases List.mem_filter.mp hp with ⟨hmem, hq⟩
  exact List.mem_filter.mpr ⟨hc p hmem, hq⟩

end FedEmp

namespace FedEmp

/-! ## Claim theorems -/

theorem pay_band_some_iff (q : ℚ) :
    (pay_band (some q) = "Under $50K" ↔ q < 50000) ∧
    (pay_band (some q) = "$50K-$75K" ↔ 50000 ≤ q ∧ q < 75000) ∧
    (pay_band (some q) = "$75K-$100K" ↔ 75000 ≤ q ∧ q < 100000) ∧
    (pay_band (some q) = "$100K-$125K" ↔ 100000 ≤ q ∧ q < 125000) ∧
    (pay_band (some q) = "$125K-$150K" ↔ 125000 ≤ q ∧ q < 150000) ∧
    (pay_band (some q) = "$150K-$200K" ↔ 150000 ≤ q ∧ q < 200000) ∧
    (pay_band (some q) = "$200K+" ↔ 200000 ≤ q) := by
  refine ⟨?_, ?_, ?_, ?_, ?_, ?_, ?_⟩ <;>
  · simp only [pay_band]
    split_ifs with h1 h2 h3 h4 h5 h6 <;>
      constructor <;> intro hx <;>
        first
          | rfl
          | exact absurd hx (by decide)
          | (constructor <;> linarith)
          | linarith

theorem categorize_pay_some_iff (q : ℚ) :
    (categorize_pay (some q) = "< $40K" ↔ q < 40000) ∧
    (categorize_pay (some q) = "$40K-$60K" ↔ 40000 ≤ q ∧ q < 60000) ∧
    (categorize_pay (some q) = "$60K-$80K" ↔ 60000 ≤ q ∧ q < 80000) ∧
    (categorize_pay (some q) = "$80K-$100K" ↔ 80000 ≤ q ∧ q < 100000) ∧
    (categorize_pay (some q) = "$100K-$150K" ↔ 100000 ≤ q ∧ q < 150000) ∧
    (categorize_pay (some q) = "$150K-$200K" ↔ 150000 ≤ q ∧ q < 200000) ∧
    (categorize_pay (some q) = "$200K+" ↔ 200000 ≤ q) := by
  refine ⟨?_, ?_, ?_, ?_, ?_, ?_, ?_⟩ <;>
  · simp only [categorize_pay]
    split_ifs with h1 h2 h3 h4 h5 h6 <;>
      constructor <;> intro hx <;>
        first
          | rfl
          | exact absurd hx (by decide)
          | (constructor <;> linarith)
          | linarith

/-- C2: every pay value (missing included) is assigned exactly one band of
the fixed ordered set; the numeric bands partition `ℚ` at the stated
thresholds with no gap or overlap (each band name is taken exactly on its
half-open interval); in particular `pay_band 49999.99 = "Under $50K"` and
`pay_band 50000 = "$50K-$75K"`; missing pay goes to the explicit redacted
bucket of the dashboard function and the unknown bucket of the full-export
function, whose own thresholds also partition `ℚ`. -/
theorem pay_banding_partitions :
    (∀ p : Option ℚ, pay_band p ∈ band_order) ∧
    pay_band none = "Redacted" ∧
    (∀ q : ℚ,
      (pay_band (some q) = "Under $50K" ↔ q < 50000) ∧
      (pay_band (some q) = "$50K-$75K" ↔ 50000 ≤ q ∧ q < 75000) ∧
      (pay_band (some q) = "$75K-$100K" ↔ 75000 ≤ q ∧ q < 100000) ∧
      (pay_band (some q) = "$100K-$125K" ↔ 100000 ≤ q ∧ q < 125000) ∧
      (pay_band (some q) = "$125K-$150K" ↔ 125000 ≤ q ∧ q < 150000) ∧
      (pay_band (some q) = "$150K-$200K" ↔ 150000 ≤ q ∧ q < 200000) ∧
      (pay_band (some q) = "$200K+" ↔ 200000 ≤ q)) ∧
    pay_band (some (mkRat 4999999 100)) = "Under $50K" ∧
    pay_band (some 50000) = "$50K-$75K" ∧
    (∀ p : Option ℚ, categorize_pay p ∈ proc_pay_bands) ∧
    categorize_pay none = "Unknown/Redacted" ∧
    (∀ q : ℚ,
      (categorize_pay (some q) = "< $40K" ↔ q < 40000) ∧
      (categorize_pay (some q) = "$40K-$60K" ↔ 40000 ≤ q ∧ q < 60000) ∧
      (categorize_pay (some q) = "$60K-$80K" ↔ 60000 ≤ q ∧ q < 80000) ∧
      (categorize_pay (some q) = "$80K-$100K" ↔ 80000 ≤ q ∧ q < 100000) ∧
      (categorize_pay (some q) = "$100K-$150K" ↔ 100000 ≤ q ∧ q < 150000) ∧
      (categorize_pay (some q) = "$150K-$200K" ↔ 150000 ≤ q ∧ q < 200000) ∧
      (categorize_pay (some q) = "$200K+" ↔ 200000 ≤ q)) := by
  refine ⟨?_, rfl, pay_band_some_iff, by decide, by decide, ?_, rfl,
    categorize_pay_some_iff⟩
  · intro p
    cases p with
    | none => decide
    | some q =>
      simp only [pay_band]
      split_ifs <;> decide
  · intro p
    cases p with
    | none => decide
    | some q =>
      simp only [categorize_pay]
      split_ifs <;> decide

/-- C3: a raw pay cell equal to the sentinel `REDACTED` derives a missing
`pay_numeric` and `is_redacted = true`; a raw cell that parses as a number
derives `is_redacted = false` and `pay_numeric` equal to the parsed value;
both derivations are total functions (a missing cell gives a missing value
and a false flag), so pay derivation never aborts the run. -/
theorem redaction_flag_correct :
    payNumericRaw (some "REDACTED") = none ∧
    isRedactedRaw (some "REDACTED") = true ∧
    isRedactedRaw none = false ∧
    payNumericRaw none = none ∧
    ∀ s q, parseDecimal s = some q →
      isRedactedRaw (some s) = false ∧ payNumericRaw (some s) = some q := by
  refine ⟨by decide, by decide, by decide, rfl, ?_⟩
  intro s q h
  have hs : s ≠ "REDACTED" := by
    intro heq
    rw [heq] at h
    have hnone : parseDecimal "REDACTED" = none := by decide
    rw [hnone] at h
    cases h
  refine ⟨?_, h⟩
  simp [isRedactedRaw, hs]

/-- Witness for C3 at the concrete raw cell `"123456.78"`. -/
theorem redaction_flag_correct_witness :
    isRedactedRaw (some "123456.78") = false ∧
      payNumericRaw (some "123456.78") = some (mkRat 12345678 100) :=
  redaction_flag_correct.2.2.2.2 "123456.78" (mkRat 12345678 100) (by decide)

end FedEmp

namespace FedEmp

theorem pos_of_mem_filter_pos {l : List (AggRow K)} {g : AggRow K}
    (hg : g ∈ l.filter fun x => 0 < x.employees) : 0 < g.employees :=
  of_decide_eq_true (List.mem_filter.mp hg).2

/-- C1 (amended): the seven dashboard tables that apply the
`employees > 0` filter — agency, state, education, appointment, age, STEM
and supervisory — contain only rows with a strictly positive employee
count.  (The dashboard pay-distribution table and the full-export script's
tables apply no such filter; see the counterexample.) -/
theorem filtered_tables_positive (rows : List Row) :
    (∀ g ∈ agency_data rows, 0 < g.employees) ∧
    (∀ g ∈ state_data rows, 0 < g.employees) ∧
    (∀ g ∈ edu_data rows, 0 < g.employees) ∧
    (∀ g ∈ appt_data rows, 0 < g.employees) ∧
    (∀ g ∈ age_data rows, 0 < g.employees) ∧
    (∀ g ∈ stem_data rows, 0 < g.employees) ∧
    (∀ g ∈ super_data rows, 0 < g.employees) := by
  refine ⟨fun g hg => ?_, fun g hg => ?_, fun g hg => ?_, fun g hg => ?_,
    fun g hg => ?_, fun g hg => ?_, fun g hg => ?_⟩
  · exact pos_of_mem_filter_pos (mem_sortLe.mp hg)
  · exact pos_of_mem_filter_pos (mem_sortLe.mp (List.mem_filter.mp hg).1)
  · exact pos_of_mem_filter_pos hg
  · exact pos_of_mem_filter_pos (mem_sortLe.mp hg)
  · exact pos_of_mem_filter_pos (mem_sortLe.mp hg)
  · exact pos_of_mem_filter_pos hg
  · exact pos_of_mem_filter_pos (mem_sortLe.mp hg)

/-- Witness for C1 on a concrete input: the only agency group of
`c1wrows` has four employees. -/
theorem filtered_tables_positive_witness :
    0 < (AggRow.mk "GSA" 4 : AggRow String).employees :=
  (filtered_tables_positive c1wrows).1 ⟨"GSA", 4⟩ (by decide)

/-- C1 counterexample: on `c1rows` (one zero-count row with pay 10000) the
dashboard pay-distribution table — an aggregate table of the dashboard
script — emits the row `⟨"Under $50K", 0⟩`, whose `employees` is not
strictly positive.  The claim "every emitted row of every aggregate table
has employees > 0" is false as stated. -/
theorem pay_dist_zero_row :
    pay_dist c1rows = [⟨"Under $50K", 0⟩] ∧
      ∃ g ∈ pay_dist c1rows, ¬0 < g.employees := by
  constructor
  · decide
  · exact ⟨⟨"Under $50K", 0⟩, by decide, by decide⟩

end FedEmp

namespace FedEmp

theorem mem_groupObserved_employees [DecidableEq K] {le : K → K → Bool}
    {keyFn : Row → Option K} {rows : List Row} {g : AggRow K}
    (hg : g ∈ groupObserved le keyFn rows) :
    g.employees = groupTotal g.key (keyedCounts keyFn rows) := by
  rcases List.mem_map.mp hg with ⟨k, _, rfl⟩
  rfl

/-- Total `employees` of a `employees > 0`-filtered observed-groups table,
under non-negative source counts: the dropped groups all total exactly
zero, so the filter does not change the sum. -/
theorem sum_filter_pos_groupObserved [DecidableEq K] (le : K → K → Bool)
    (keyFn : Row → Option K) (rows : List Row)
    (hc : ∀ r ∈ rows, 0 ≤ r.count) :
    (((groupObserved le keyFn rows).filter
        fun g => 0 < g.employees).map AggRow.employees).sum =
      ((rows.filter fun r => (keyFn r).isSome).map Row.count).sum := by
  rw [sum_filter_eq_sum _ _ _ ?hzero]
  · exact sum_groupObserved le keyFn rows
  case hzero =>
    intro g hg hfalse
    have hnn : 0 ≤ g.employees :=
      (mem_groupObserved_employees hg) ▸ groupTotal_nonneg hc g.key
    have hnp : ¬0 < g.employees := of_decide_eq_false hfalse
    omega

/-- C4 helper: total of the dashboard agency table. -/
theorem agency_data_total (rows : List Row) (hc : ∀ r ∈ rows, 0 ≤ r.count) :
    ((agency_data rows).map AggRow.employees).sum =
      ((rows.filter fun r => r.agency.isSome).map Row.count).sum := by
  unfold agency_data
  rw [((sortLe_perm empDesc _).map AggRow.employees).sum_eq]
  exact sum_filter_pos_groupObserved strLe (fun r => r.agency) rows hc

/-- Sum of `count` over the keyed rows whose key satisfies a predicate. -/
theorem sum_keyedCounts_filter (q : K → Bool) (keyFn : Row → Option K)
    (rows : List Row) :
    (((keyedCounts keyFn rows).filter fun p => q p.1).map Prod.snd).sum =
      ((rows.filter fun r => (keyFn r).any q).map Row.count).sum := by
  induction rows with
  | nil => rfl
  | cons r t ih =>
    rw [List.filter_cons]
    cases h : keyFn r with
    | none =>
      have hkc : keyedCounts keyFn (r :: t) = keyedCounts keyFn t := by
        simp [keyedCounts, List.filterMap_cons, h]
      rw [hkc, if_neg (by simp [h]), ih]
    | some k =>
      have hkc : keyedCounts keyFn (r :: t) =
          (k, r.count) :: keyedCounts keyFn t := by
        simp [keyedCounts, List.filterMap_cons, h]
      rw [hkc, List.filter_cons]
      by_cases hq : q k = true
      · rw [if_pos (by simpa using hq), if_pos (by simp [h, hq])]
        simp only [List.map_cons, List.sum_cons, ih]
      · have hq' : q k = false := by
          cases hqv : q k
          · rfl
          · exact absurd hqv hq
        rw [if_neg (by simp [hq']), if_neg (by simp [h, hq']), ih]

/-- C4 helper: total of the dashboard states table, which also drops the
`REDACTED` state group. -/
theorem state_data_total (rows : List Row) (hc : ∀ r ∈ rows, 0 ≤ r.count) :
    ((state_data rows).map AggRow.employees).sum =
      ((rows.filter fun r =>
          (stateKey r).any fun k => k.1 ≠ "REDACTED").map Row.count).sum := by
  unfold state_data
  have hperm1 : List.Perm
      ((sortLe empDesc
          ((groupObserved pairLe stateKey rows).filter
            fun g => 0 < g.employees)).filter
        fun g => g.key.1 ≠ "REDACTED")
      (((groupObserved pairLe stateKey rows).filter
          fun g => 0 < g.employees).filter
        fun g => g.key.1 ≠ "REDACTED") :=
    (sortLe_perm empDesc _).filter _
  rw [(hperm1.map AggRow.employees).sum_eq]
  rw [List.filter_filter]
  have hswap : ((groupObserved pairLe stateKey rows).filter
      fun g => decide (g.key.1 ≠ "REDACTED") && decide (0 < g.employees)) =
      ((groupObserved pairLe stateKey rows).filter
        fun g => g.key.1 ≠ "REDACTED").filter fun g => 0 < g.employees := by
    rw [List.filter_filter]
    apply List.filter_congr
    intro g _
    exact Bool.and_comm _ _
  rw [hswap]
  rw [sum_filter_eq_sum _ _ _ ?hzero]
  case hzero =>
    intro g hg hfalse
    have hnn : 0 ≤ g.employees :=
      (mem_groupObserved_employees (List.mem_filter.mp hg).1) ▸
        groupTotal_nonneg hc g.key
    have hnp : ¬0 < g.employees := of_decide_eq_false hfalse
    omega
  have hpush : ((groupObserved pairLe stateKey rows).filter
      fun g => g.key.1 ≠ "REDACTED").map AggRow.employees =
      ((sortLe pairLe
          ((keyedCounts stateKey rows).map Prod.fst).dedup).filter
        fun k => k.1 ≠ "REDACTED").map
        fun k => groupTotal k (keyedCounts stateKey rows) := by
    unfold groupObserved
    rw [List.filter_map, List.map_map]
    rfl
  rw [hpush]
  rw [(((sortLe_perm pairLe _).filter fun k => k.1 ≠ "REDACTED").map
    fun k => groupTotal k (keyedCounts stateKey rows)).sum_eq]
  rw [sum_map_groupTotal_filter _ _ _ (List.nodup_dedup _) fun p hp =>
    List.mem_dedup.mpr (List.mem_map_of_mem Prod.fst hp)]
  exact sum_keyedCounts_filter (fun k => decide (k.1 ≠ "REDACTED")) stateKey
    rows

/-- C4 helper: total of the full-export agency table (cross-product
groups): the unobserved combinations total zero, so the table total is the
keyed-row total, with no sign condition needed. -/
theorem agency_export_total (rows : List Row) :
    ((agency_export rows).map AggRow.employees).sum =
      ((rows.filter fun r => (agencyPairKey r).isSome).map Row.count).sum := by
  unfold agency_export
  rw [← sum_keyedCounts]
  rw [List.map_map]
  have hnodup : (((colCategories (fun r => r.agency) rows)).product
      (colCategories (fun r => r.agency_code) rows)).Nodup := by
    apply List.Nodup.product
    · exact ((sortLe_perm strLe _).nodup_iff).mpr (List.nodup_dedup _)
    · exact ((sortLe_perm strLe _).nodup_iff).mpr (List.nodup_dedup _)
  exact sum_map_groupTotal _ _ hnodup fun p hp => by
    rcases mem_keyedCounts hp with ⟨r, hr, hkey, _⟩
    rcases agencyPairKey_eq_some.mp hkey with ⟨ha, hb⟩
    exact List.mem_product.mpr
      ⟨mem_sortLe.mpr (List.mem_dedup.mpr (List.mem_filterMap.mpr ⟨r, hr, ha⟩)),
       mem_sortLe.mpr (List.mem_dedup.mpr (List.mem_filterMap.mpr ⟨r, hr, hb⟩))⟩

end FedEmp

namespace FedEmp

/-- C4 (amended): for the aggregate tables the sum of the emitted
`employees` equals the sum of `count` over the source rows with a fully
non-null grouping key — for the full-export agency table unconditionally,
and for the `employees > 0`-filtered dashboard tables (shown for the agency
table) under non-negative source counts — EXCEPT the dashboard states
table, whose emitted total equals the count of the non-null-key rows whose
state is also not `REDACTED`, because that table additionally drops the
`REDACTED` state group after aggregation. -/
theorem aggregate_totals :
    (∀ rows : List Row, (∀ r ∈ rows, 0 ≤ r.count) →
      ((agency_data rows).map AggRow.employees).sum =
          ((rows.filter fun r => r.agency.isSome).map Row.count).sum ∧
        ((state_data rows).map AggRow.employees).sum =
          ((rows.filter fun r =>
              (stateKey r).any fun k => k.1 ≠ "REDACTED").map
            Row.count).sum) ∧
    ∀ rows : List Row,
      ((agency_export rows).map AggRow.employees).sum =
        ((rows.filter fun r => (agencyPairKey r).isSome).map Row.count).sum :=
  ⟨fun rows hc => ⟨agency_data_total rows hc, state_data_total rows hc⟩,
   agency_export_total⟩

/-- Witness for C4 on a concrete input: on `c4wrows` the agency-table total
is 8, the states-table total is 3 (the positive-count `REDACTED` group is
dropped), and the full-export agency-table total is 8. -/
theorem aggregate_totals_witness :
    (((agency_data c4wrows).map AggRow.employees).sum =
        ((c4wrows.filter fun r => r.agency.isSome).map Row.count).sum ∧
      ((state_data c4wrows).map AggRow.employees).sum =
        ((c4wrows.filter fun r =>
            (stateKey r).any fun k => k.1 ≠ "REDACTED").map Row.count).sum) ∧
    ((agency_export c4wrows).map AggRow.employees).sum =
      ((c4wrows.filter fun r => (agencyPairKey r).isSome).map
        Row.count).sum :=
  ⟨aggregate_totals.1 c4wrows (by decide), aggregate_totals.2 c4wrows⟩

/-- C4 counterexample: on `c4rows` (a `REDACTED` state group with count 5
and a `TEXAS` group with count 3) the dashboard states table — an aggregate
table cited by the claim — sums to 3 while the source rows with a non-null
grouping-key combination sum to 8, so the claimed identity fails as
stated. -/
theorem state_total_mismatch :
    ((state_data c4rows).map AggRow.employees).sum ≠
      ((c4rows.filter fun r => (stateKey r).isSome).map Row.count).sum := by
  decide

end FedEmp

namespace FedEmp

/-- C5 (amended): the dashboard script's groupbys, which pass
`observed=True`, emit only key combinations observed in some source row —
shown for all seven of its grouped tables.  The full-export script's
groupbys omit `observed=`, and under the pandas default (`observed=False`
for categorical keys) its multi-column tables materialise the full
cross-product of the per-column category sets, so they can emit
combinations observed in no row; see the counterexample. -/
theorem observed_combinations_only (rows : List Row) :
    (∀ g ∈ agency_data rows, ∃ r ∈ rows, r.agency = some g.key) ∧
    (∀ g ∈ state_data rows, ∃ r ∈ rows, stateKey r = some g.key) ∧
    (∀ g ∈ edu_data rows, ∃ r ∈ rows, r.education_level = some g.key) ∧
    (∀ g ∈ appt_data rows, ∃ r ∈ rows, r.appointment_type = some g.key) ∧
    (∀ g ∈ age_data rows, ∃ r ∈ rows, r.age_bracket = some g.key) ∧
    (∀ g ∈ stem_data rows, ∃ r ∈ rows, r.stem_occupation = some g.key) ∧
    (∀ g ∈ super_data rows, ∃ r ∈ rows, r.supervisory_status = some g.key) := by
  refine ⟨fun g hg => ?_, fun g hg => ?_, fun g hg => ?_, fun g hg => ?_,
    fun g hg => ?_, fun g hg => ?_, fun g hg => ?_⟩
  · exact mem_groupObserved_key
      (List.mem_filter.mp (mem_sortLe.mp hg)).1
  · exact mem_groupObserved_key
      (List.mem_filter.mp (mem_sortLe.mp (List.mem_filter.mp hg).1)).1
  · exact mem_groupObserved_key (List.mem_filter.mp hg).1
  · exact mem_groupObserved_key
      (List.mem_filter.mp (mem_sortLe.mp hg)).1
  · exact mem_groupObserved_key
      (List.mem_filter.mp (mem_sortLe.mp hg)).1
  · exact mem_groupObserved_key (List.mem_filter.mp hg).1
  · exact mem_groupObserved_key
      (List.mem_filter.mp (mem_sortLe.mp hg)).1

/-- Witness for C5 on a concrete input: the agency group `GSA` of
`c5wrows` is backed by a source row. -/
theorem observed_combinations_only_witness :
    ∃ r ∈ c5wrows, r.agency = some (AggRow.mk "GSA" 2 : AggRow String).key :=
  (observed_combinations_only c5wrows).1 ⟨"GSA", 2⟩ (by decide)

/-- C5 counterexample: on `c5rows` (agency `A` with code `1`, agency `B`
with code `2`) the full-export agency table materialises the never-observed
cross combination `("A", "2")` (with zero count), so the claim "the output
contains only category combinations actually observed in the data" is
false as stated for the full-export script's groupbys. -/
theorem cross_product_materialized :
    ∃ g ∈ agency_export c5rows,
      ∀ r ∈ c5rows, agencyPairKey r ≠ some g.key := by
  decide

end FedEmp

namespace FedEmp

theorem sortLe_empDesc_sorted (l : List (AggRow K)) :
    (sortLe empDesc l).Pairwise fun a b => b.employees ≤ a.employees :=
  (pairwise_sortLe empDesc empDesc_trans empDesc_total l).imp
    fun h => of_decide_eq_true h

theorem sortLe_rankLe_sorted (rank : String → Nat) (l : List (AggRow String)) :
    (sortLe (rankLe rank) l).Pairwise fun a b => rank a.key ≤ rank b.key :=
  (pairwise_sortLe (rankLe rank) (rankLe_trans rank) (rankLe_total rank) l).imp
    fun h => of_decide_eq_true h

/-- C6 (amended): in the dashboard script the agency, state, appointment
and supervisory tables are emitted in descending order of employee count,
and the age-bracket and pay-band tables in the order of their explicit rank
lookups, where a category outside the fixed list ranks 99 — strictly after
every listed category, which rank at most 7 (pay bands) and 10 (age
brackets).  The full-export script's tables are NOT re-sorted: they stay in
groupby key order, so its agency table need not be sorted by count; see the
counterexample. -/
theorem dashboard_sort_order :
    (∀ rows, (agency_data rows).Pairwise
      fun a b => b.employees ≤ a.employees) ∧
    (∀ rows, (state_data rows).Pairwise
      fun a b => b.employees ≤ a.employees) ∧
    (∀ rows, (appt_data rows).Pairwise
      fun a b => b.employees ≤ a.employees) ∧
    (∀ rows, (super_data rows).Pairwise
      fun a b => b.employees ≤ a.employees) ∧
    (∀ rows, (age_data rows).Pairwise
      fun a b => ageRank a.key ≤ ageRank b.key) ∧
    (∀ rows, (pay_dist rows).Pairwise
      fun a b => bandRank a.key ≤ bandRank b.key) ∧
    (∀ b, b ∉ band_order → bandRank b = 99) ∧
    (∀ b ∈ band_order, bandRank b ≤ 7) ∧
    (∀ b, b ∉ age_order → ageRank b = 99) ∧
    (∀ b ∈ age_order, ageRank b ≤ 10) := by
  refine ⟨fun rows => sortLe_empDesc_sorted _,
    fun rows => List.Pairwise.sublist (List.filter_sublist _)
      (sortLe_empDesc_sorted _),
    fun rows => sortLe_empDesc_sorted _,
    fun rows => sortLe_empDesc_sorted _,
    fun rows => sortLe_rankLe_sorted ageRank _,
    fun rows => sortLe_rankLe_sorted bandRank _,
    fun b hb => if_neg hb,
    fun b hb => ?_, fun b hb => if_neg hb, fun b hb => ?_⟩
  · have hlt : band_order.indexOf b < band_order.length :=
      List.indexOf_lt_length.mpr hb
    have hlen : band_order.length = 8 := by decide
    unfold bandRank
    rw [if_pos hb]
    omega
  · have hlt : age_order.indexOf b < age_order.length :=
      List.indexOf_lt_length.mpr hb
    have hlen : age_order.length = 11 := by decide
    unfold ageRank
    rw [if_pos hb]
    omega

/-- Witness for C6 on a concrete input: the dashboard agency table of
`c6wrows` is descending by employees, and the unlisted band `"FOO"` ranks
99 while the listed band `"Redacted"` ranks at most 7. -/
theorem dashboard_sort_order_witness :
    (agency_data c6wrows).Pairwise
        (fun a b => b.employees ≤ a.employees) ∧
      bandRank "FOO" = 99 ∧ bandRank "Redacted" ≤ 7 :=
  ⟨dashboard_sort_order.1 c6wrows,
   dashboard_sort_order.2.2.2.2.2.2.1 "FOO" (by decide),
   dashboard_sort_order.2.2.2.2.2.2.2.1 "Redacted" (by decide)⟩

/-- C6 counterexample: on `c6rows` the full-export agency table — cited by
the claim among the tables "sorted descending by total count" — emits
`[("A","1") ↦ 1, ("B","1") ↦ 5]` in groupby key order, which is not
descending by employee count, so the claim is false as stated. -/
theorem agency_export_not_sorted :
    agency_export c6rows = [⟨("A", "1"), 1⟩, ⟨("B", "1"), 5⟩] ∧
      ¬(agency_export c6rows).Pairwise
        fun a b => b.employees ≤ a.employees := by
  constructor
  · decide
  · decide

end FedEmp

namespace FedEmp

theorem setFile_self (fs : FS α) (p : String) (v : α) :
    setFile fs p v p = some v := by
  simp [setFile]

theorem setFile_setFile (fs : FS α) (p : String) (v w : α) :
    setFile (setFile fs p v) p w = setFile fs p w := by
  funext q
  by_cases h : q = p <;> simp [setFile, h]

/-- C7: both pipelines are deterministic and idempotent at the file-store
level: a second run on the same input leaves the file store exactly as the
first run did (every output path is overwritten wholesale, never appended),
and the content of each output path after a run is a function of the input
alone, independent of whatever the store previously held. -/
theorem runs_idempotent_deterministic :
    (∀ input fs, (runDashboard input (runDashboard input fs).fs).fs =
      (runDashboard input fs).fs) ∧
    (∀ input fs, (runProcess input (runProcess input fs).fs).fs =
      (runProcess input fs).fs) ∧
    (∀ rows fs fs', (runDashboard (some rows) fs).fs dataJsPath =
      (runDashboard (some rows) fs').fs dataJsPath) ∧
    (∀ rows fs fs', (runProcess (some rows) fs).fs agencySummaryPath =
      (runProcess (some rows) fs').fs agencySummaryPath) ∧
    (∀ r rs fs fs', (runProcess (some (r :: rs)) fs).fs overallStatsPath =
      (runProcess (some (r :: rs)) fs').fs overallStatsPath) := by
  have hpaths : overallStatsPath ≠ agencySummaryPath := by decide
  refine ⟨?_, ?_, ?_, ?_, ?_⟩
  · intro input fs
    cases input with
    | none => rfl
    | some rows => exact setFile_setFile fs dataJsPath _ _
  · intro input fs
    cases input with
    | none => rfl
    | some rows =>
      cases rows with
      | nil =>
        funext q
        by_cases h2 : q = agencySummaryPath <;>
          simp [runProcess, overall_stats, setFile, h2]
      | cons r rs =>
        funext q
        by_cases h1 : q = overallStatsPath
        · by_cases h2 : q = agencySummaryPath
          · exact absurd (h1.symm.trans h2) hpaths
          · simp [runProcess, overall_stats, setFile, h1, hpaths]
        · by_cases h2 : q = agencySummaryPath <;>
            simp [runProcess, overall_stats, setFile, h1, h2]
  · intro rows fs fs'
    simp [runDashboard, setFile]
  · intro rows fs fs'
    cases rows with
    | nil => simp [runProcess, overall_stats, setFile]
    | cons r rs => simp [runProcess, overall_stats, setFile, hpaths]
  · intro r rs fs fs'
    simp [runProcess, overall_stats, setFile]

/-- C8: a missing input file makes either script fail before producing any
output: the file store is untouched, the exit status is nonzero (1), and a
non-empty human-readable diagnostic naming the input path is reported —
`process_data.py` prints its explicit error and calls `sys.exit(1)`, while
`create_dashboard_data.py` dies on the uncaught `FileNotFoundError` raised
by `pd.read_csv`. -/
theorem missing_input_fatal :
    (∀ fs : FS ProcFile, (runProcess none fs).exitCode = 1 ∧
      (runProcess none fs).fs = fs ∧
      (runProcess none fs).diagnostic = some procMissingMsg) ∧
    (∀ fs : FS DashFile, (runDashboard none fs).exitCode = 1 ∧
      (runDashboard none fs).fs = fs ∧
      (runDashboard none fs).diagnostic = some dashMissingMsg) ∧
    procMissingMsg ≠ "" ∧ dashMissingMsg ≠ "" :=
  ⟨fun fs => ⟨rfl, rfl, rfl⟩, fun fs => ⟨rfl, rfl, rfl⟩,
   by decide, by decide⟩

end FedEmp

namespace FedEmp

/-- C9: the dashboard states table never contains the `REDACTED` state —
even when that group's aggregated count is positive, it is dropped by the
post-aggregation filter — and the overall statistic `total_states` counts
exactly the state groups that are both positive-count and not
`REDACTED`. -/
theorem total_states_excludes_redacted (rows : List Row) :
    (∀ g ∈ state_data rows, g.key.1 ≠ "REDACTED" ∧ 0 < g.employees) ∧
    (dashOverall rows).total_states =
      ((groupObserved pairLe stateKey rows).filter
        fun g =>
          decide (g.key.1 ≠ "REDACTED") && decide (0 < g.employees)).length := by
  constructor
  · intro g hg
    exact ⟨of_decide_eq_true (List.mem_filter.mp hg).2,
      pos_of_mem_filter_pos (mem_sortLe.mp (List.mem_filter.mp hg).1)⟩
  · show (state_data rows).length = _
    unfold state_data
    rw [← List.countP_eq_length_filter,
      (sortLe_perm empDesc ((groupObserved pairLe stateKey rows).filter
        fun g => 0 < g.employees)).countP_eq,
      List.countP_eq_length_filter, List.filter_filter]

/-- Witness for C9 on a concrete input: on `c9rows` the `TEXAS` group
passes both conditions, and `total_states` is the filtered group count. -/
theorem total_states_excludes_redacted_witness :
    ((AggRow.mk ("TEXAS", "TX") 3 : AggRow (String × String)).key.1 ≠
        "REDACTED" ∧
      0 < (AggRow.mk ("TEXAS", "TX") 3 : AggRow (String × String)).employees) ∧
    (dashOverall c9rows).total_states =
      ((groupObserved pairLe stateKey c9rows).filter
        fun g =>
          decide (g.key.1 ≠ "REDACTED") && decide (0 < g.employees)).length :=
  ⟨(total_states_excludes_redacted c9rows).1 ⟨("TEXAS", "TX"), 3⟩ (by decide),
   (total_states_excludes_redacted c9rows).2⟩

/-- C10: the overall-statistics step of the full-export pipeline is partial
in the number of input rows: on an input with zero data rows the step
raises (modelled as `overall_stats [] = none`), the run exits nonzero and
`overall_stats.json` is never written — the store is untouched at that
path; on any non-empty input the run succeeds, `overall_stats.json` is
written, and its `snapshot_date` is the first row's `snapshot_yyyymm`. -/
theorem snapshot_date_partiality :
    overall_stats [] = none ∧
    (∀ fs : FS ProcFile,
      (runProcess (some []) fs).fs overallStatsPath = fs overallStatsPath ∧
        (runProcess (some []) fs).exitCode = 1) ∧
    (∀ (r : Row) (rs : List Row) (fs : FS ProcFile), ∃ st : OverallStats,
      overall_stats (r :: rs) = some st ∧
        st.snapshot_date = r.snapshot_yyyymm ∧
        (runProcess (some (r :: rs)) fs).fs overallStatsPath =
          some (ProcFile.statsJson st) ∧
        (runProcess (some (r :: rs)) fs).exitCode = 0) := by
  have hpaths : overallStatsPath ≠ agencySummaryPath := by decide
  refine ⟨rfl, fun fs => ⟨?_, rfl⟩, fun r rs fs => ⟨_, rfl, rfl, ?_, rfl⟩⟩
  · simp [runProcess, overall_stats, setFile, hpaths]
  · simp [runProcess, overall_stats, setFile]

end FedEmp
